import Mathlib

/-!
Shallow embedding of `src/funclip/video_slicer.py` (class `VideoSlicer`), the
parallel video-frame-sampling engine, together with proofs about the claims of
its specification.

Modelling conventions:
* External effects (filesystem tests, `shutil.rmtree`, `Path.mkdir`,
  `ffprobe`/`ffmpeg` subprocess invocations, `pathlib.Path.stem`) are supplied
  by an environment `Env` of oracles: each oracle returns the observable
  outcome of the corresponding Python call, including the exception it may
  raise.  The Python code under `src/` is the authority for where such
  exceptions are caught.
* Python exceptions are the `PyExn` type; a function that may raise returns
  `Except PyExn α` (or a `PyResult α`, which also carries the log-event trace).
  A Python `try`/`except` block is a `match` on that value.
* Log lines and filesystem writes that the claims talk about are recorded as an
  ordered `List Event` trace.
* Numbers: Python `int` is `ℤ`, the `float` returned by the duration probe is
  modelled as `ℚ` (ffprobe prints a finite decimal string); `int(x)` is
  truncation toward zero (`pyInt`), and Python's `divmod` with a positive
  modulus is `Int.fdiv`/`Int.fmod`.
* The `ThreadPoolExecutor` of `process_videos` is serialised: jobs share no
  state in the model (each mutates only its own subdirectory), so the per-job
  outcomes and the properties proved below are interleaving-independent.
-/

/-- Python exceptions that the embedded code can raise. -/
inductive PyExn : Type
  /-- Python `ValueError`, e.g. from `range(0, n, 0)`. -/
  | valueError : PyExn
  /-- Python `IndexError`, e.g. from `timestamps[-1]` on an empty list. -/
  | indexError : PyExn
  /-- Python `subprocess.CalledProcessError` (non-zero exit under `check=True`), with the process stderr. -/
  | calledProcessError : String → PyExn
  /-- An `OSError` (permissions, missing binary, disk full, ...). -/
  | osError : String → PyExn
  /-- A parse failure (`json.loads` or `float()` raised). -/
  | parseError : PyExn
  /-- A `KeyError`/`IndexError` from indexing the parsed probe output. -/
  | lookupError : PyExn
deriving DecidableEq, Repr

/-- Outcome of the resolution-probe pipeline of `get_video_resolution`
(lines 100-104): run `ffprobe`, `json.loads` the stdout, index
`info['streams'][0]['width'|'height']`.  Each constructor records at which
stage the pipeline stops. -/
inductive ResProbeOutcome : Type
  /-- Python `subprocess.run(..., check=True)` raised (non-zero exit or spawn failure). -/
  | runFailure : String → ResProbeOutcome
  /-- Python `json.loads` raised. -/
  | parseFailure : ResProbeOutcome
  /-- The JSON parsed but `streams[0]['width']`/`['height']` is absent. -/
  | missingStream : ResProbeOutcome
  /-- The probe succeeded with this width and height. -/
  | found : ℤ → ℤ → ResProbeOutcome
deriving DecidableEq, Repr

/-- Outcome of the duration-probe pipeline of `get_video_duration`
(lines 124-126): run `ffprobe`, `float()` the stripped stdout. -/
inductive DurProbeOutcome : Type
  /-- Python `subprocess.run(..., check=True)` raised. -/
  | runFailure : String → DurProbeOutcome
  /-- Python `float(result.stdout.strip())` raised. -/
  | parseFailure : DurProbeOutcome
  /-- The probe succeeded with this duration in seconds. -/
  | found : ℚ → DurProbeOutcome
deriving DecidableEq, Repr

/-- Outcome of one `ffmpeg` single-frame extraction (`subprocess.run` at
line 161). -/
inductive ExtractOutcome : Type
  /-- Exit status 0: the frame was written. -/
  | ok : ExtractOutcome
  /-- Non-zero exit: `check=True` raises `subprocess.CalledProcessError`. -/
  | nonzeroExit : String → ExtractOutcome
  /-- Python `subprocess.run` itself failed (e.g. `OSError`: binary missing). -/
  | invokeFailure : String → ExtractOutcome
deriving DecidableEq, Repr

/-- The environment of external-world oracles: each field gives the observable
outcome of one kind of Python call made by `VideoSlicer`. -/
structure Env : Type where
  /-- Python `video_path.is_file()` (line 210). -/
  isFile : String → Bool
  /-- Python `self.output_dir.exists()` (line 60). -/
  pathExists : String → Bool
  /-- Outcome of `shutil.rmtree(dir)` (line 62): `none` = success, `some e` = raised `e`. -/
  rmtree : String → Option PyExn
  /-- Outcome of `path.mkdir(parents=True, exist_ok=True)` (lines 67, 79): `none` = success. -/
  mkdir : String → Option PyExn
  /-- Outcome of the `ffprobe` resolution pipeline for this path (lines 100-104). -/
  resolutionProbe : String → ResProbeOutcome
  /-- Outcome of the `ffprobe` duration pipeline for this path (lines 124-125). -/
  durationProbe : String → DurProbeOutcome
  /-- Outcome of the `ffmpeg` extraction for (video, timestamp, image path) (line 161). -/
  extract : String → ℤ → String → ExtractOutcome
  /-- Python `pathlib.Path(p).stem` (line 215), modelled as an oracle on the path string. -/
  stem : String → String

/-- One entry of the observable trace of a run: the log lines and submissions
the claims reason about, in program order. -/
inductive Event : Type
  /-- Python `shutil.rmtree(output_dir)` was attempted; `true` = succeeded (line 62-65). -/
  | resetRemoved : String → Bool → Event
  /-- Python `output_dir.mkdir(...)` was attempted during the reset; `true` = succeeded (line 66-70). -/
  | resetCreated : String → Bool → Event
  /-- A listed video path was not a regular file and was skipped (line 211). -/
  | skippedMissing : String → Event
  /-- Python `create_folder` attempted this per-video subdirectory; `true` = succeeded (lines 78-82). -/
  | folderCreated : String → Bool → Event
  /-- Python `executor.submit(self.extract_and_save_frames, video_path, folder_path)` (line 222). -/
  | jobSubmitted : String → String → Event
  /-- The resolution probe failed and the job returned early (lines 174-176). -/
  | resolutionFailed : String → Event
  /-- The duration probe failed and the job returned early (lines 181-183). -/
  | durationFailed : String → Event
  /-- External `ffmpeg` wrote the frame at this timestamp for this video (line 162). -/
  | frameSaved : String → ℤ → Event
  /-- External `ffmpeg` exited non-zero at this timestamp; logged, loop continues (lines 163-164). -/
  | frameFailed : String → ℤ → Event
  /-- Python `future.result()` re-raised an exception from the job body; caught and logged (lines 226-229). -/
  | jobRaised : String → Event
  /-- The final "all videos processed" log line (line 231). -/
  | runFinished : Event
deriving DecidableEq, Repr

/-- A Python call result in the model: its trace of events plus its value or
the exception it raised. -/
structure PyResult (α : Type) : Type where
  /-- Events emitted before returning or raising. -/
  events : List Event
  /-- The returned value, or the raised exception. -/
  result : Except PyExn α

/-- Python `int(q)` on a numeric value: truncation toward zero. -/
def pyInt (q : ℚ) : ℤ := if 0 ≤ q then ⌊q⌋ else ⌈q⌉

/-- The length of Python `range(start, stop, step)` for `step ≠ 0`. -/
def pyRangeLen (start stop step : ℤ) : ℕ :=
  if 0 < step then
    if stop ≤ start then 0 else ((stop - start - 1).toNat / step.toNat) + 1
  else
    if start ≤ stop then 0 else ((start - stop - 1).toNat / (-step).toNat) + 1

/-- Python `list(range(start, stop, step))`: raises `ValueError` when
`step = 0`, otherwise the arithmetic progression `start, start+step, ...`
strictly before `stop` (in the direction of `step`). -/
def pyRange (start stop step : ℤ) : Except PyExn (List ℤ) :=
  if step = 0 then .error .valueError
  else .ok ((List.range (pyRangeLen start stop step)).map fun k : ℕ => start + step * (k : ℤ))

/-- The timestamp grid of `extract_and_save_frames`, lines 187-190:
`timestamps = list(range(0, int(duration) + 1, self.interval))`, then
`int(duration)` is appended when `timestamps[-1] != int(duration)`.
`timestamps[-1]` on an empty list raises `IndexError`. -/
def planTimestamps (duration : ℚ) (interval : ℤ) : Except PyExn (List ℤ) :=
  match pyRange 0 (pyInt duration + 1) interval with
  | .error e => .error e
  | .ok ts =>
    match ts.getLast? with
    | none => .error .indexError
    | some lastTs =>
      .ok (if lastTs ≠ pyInt duration then ts ++ [pyInt duration] else ts)

/-- The `try` body of `get_video_resolution` (lines 100-104), which can raise
at each pipeline stage. -/
def resolutionBody (env : Env) (video_path : String) : Except PyExn (ℤ × ℤ) :=
  match env.resolutionProbe video_path with
  | .runFailure msg => .error (.calledProcessError msg)
  | .parseFailure => .error .parseError
  | .missingStream => .error .lookupError
  | .found w h => .ok (w, h)

/-- Embedding of `get_video_resolution` (lines 84-107): the `try`/`except Exception` turns
any pipeline failure into the `(None, None)` return value, here `none`. -/
def get_video_resolution (env : Env) (video_path : String) : Option (ℤ × ℤ) :=
  match resolutionBody env video_path with
  | .ok wh => some wh
  | .error _ => none

/-- The method `get_video_resolution` viewed in exception semantics: the method itself,
with its internal handler, as a possibly-raising call.  Used to state that the
method never raises. -/
def get_video_resolutionE (env : Env) (video_path : String) :
    Except PyExn (Option (ℤ × ℤ)) :=
  match resolutionBody env video_path with
  | .ok wh => .ok (some wh)
  | .error _ => .ok none

/-- The `try` body of `get_video_duration` (lines 124-126). -/
def durationBody (env : Env) (video_path : String) : Except PyExn ℚ :=
  match env.durationProbe video_path with
  | .runFailure msg => .error (.calledProcessError msg)
  | .parseFailure => .error .parseError
  | .found d => .ok d

/-- Embedding of `get_video_duration` (lines 109-129): the `try`/`except Exception` turns
any failure into the `None` return value. -/
def get_video_duration (env : Env) (video_path : String) : Option ℚ :=
  match durationBody env video_path with
  | .ok d => some d
  | .error _ => none

/-- The method `get_video_duration` viewed in exception semantics (see
`get_video_resolutionE`). -/
def get_video_durationE (env : Env) (video_path : String) : Except PyExn (Option ℚ) :=
  match durationBody env video_path with
  | .ok d => .ok (some d)
  | .error _ => .ok none

/-- Python `f"{n:02d}"`: the decimal representation of `n`, zero-padded on the
left to at least two characters (a sign counts as a character). -/
def pyFormat02 (n : ℤ) : String :=
  if 0 ≤ n ∧ n < 10 then "0" ++ Nat.repr n.toNat else Int.repr n

/-- Embedding of `get_timestamp_str` (lines 131-140): `divmod(int(t), 3600)` then
`divmod(remainder, 60)`, each part formatted with `{:02d}`.  All call sites
pass an `int`, so `int(t)` is the identity; Python `divmod` with a positive
modulus is floor division and floor remainder. -/
def get_timestamp_str (t : ℤ) : String :=
  pyFormat02 (Int.fdiv t 3600) ++ "_" ++ pyFormat02 (Int.fmod t 3600 |>.fdiv 60)
    ++ "_" ++ pyFormat02 (Int.fmod t 3600 |>.fmod 60)

/-- Embedding of `extract_and_save_frame` (lines 142-164): one `ffmpeg` invocation; only
`subprocess.CalledProcessError` is caught (and logged), any other exception
propagates to the caller. -/
def extract_and_save_frame (env : Env) (video_path : String) (timestamp : ℤ)
    (image_path : String) : PyResult Unit :=
  match env.extract video_path timestamp image_path with
  | .ok => ⟨[.frameSaved video_path timestamp], .ok ()⟩
  | .nonzeroExit _ => ⟨[.frameFailed video_path timestamp], .ok ()⟩
  | .invokeFailure msg => ⟨[], .error (.osError msg)⟩

/-- The per-timestamp loop of `extract_and_save_frames` (lines 192-197): build
`folder_path / f"{timestamp_str}.png"` and call `extract_and_save_frame`; an
exception from the call aborts the loop and propagates. -/
def extractFramesLoop (env : Env) (video_path folder_path : String) :
    List ℤ → PyResult Unit
  | [] => ⟨[], .ok ()⟩
  | t :: rest =>
    let image_path := folder_path ++ "/" ++ get_timestamp_str t ++ ".png"
    let r := extract_and_save_frame env video_path t image_path
    match r.result with
    | .ok _ =>
      let r' := extractFramesLoop env video_path folder_path rest
      ⟨r.events ++ r'.events, r'.result⟩
    | .error e => ⟨r.events, .error e⟩

/-- Embedding of `extract_and_save_frames` (lines 166-197), the body of one job: probe the
resolution (early `return` on `None`), probe the duration (early `return` on
`None`), plan the timestamp grid, then extract each frame in order. -/
def extract_and_save_frames (env : Env) (interval : ℤ)
    (video_path folder_path : String) : PyResult Unit :=
  match get_video_resolution env video_path with
  | none => ⟨[.resolutionFailed video_path], .ok ()⟩
  | some _ =>
    match get_video_duration env video_path with
    | none => ⟨[.durationFailed video_path], .ok ()⟩
    | some duration =>
      match planTimestamps duration interval with
      | .error e => ⟨[], .error e⟩
      | .ok timestamps => extractFramesLoop env video_path folder_path timestamps

/-- Embedding of `clear_output_directory` (lines 56-70): if the root exists, `rmtree` it
inside `try`/`except Exception` (failure only logged); then `mkdir` it inside
`try`/`except Exception` (failure only logged).  The method always returns
normally. -/
def clear_output_directory (env : Env) (output_dir : String) : List Event :=
  (if env.pathExists output_dir then
    match env.rmtree output_dir with
    | none => [Event.resetRemoved output_dir true]
    | some _ => [Event.resetRemoved output_dir false]
  else []) ++
  (match env.mkdir output_dir with
   | none => [Event.resetCreated output_dir true]
   | some _ => [Event.resetCreated output_dir false])

/-- Embedding of `create_folder` (lines 72-82): `mkdir(parents=True, exist_ok=True)` inside
`try`/`except Exception` (failure only logged); always returns normally. -/
def create_folder (env : Env) (folder_path : String) : List Event :=
  match env.mkdir folder_path with
  | none => [Event.folderCreated folder_path true]
  | some _ => [Event.folderCreated folder_path false]

/-- The state stored by `VideoSlicer.__init__` (lines 12-26): the video path
list, the root output directory and the interval are stored as given, with no
validation of any of them. -/
structure VideoSlicer : Type where
  /-- Python `self.video_paths` (paths, kept as strings). -/
  video_paths : List String
  /-- Python `self.output_dir`. -/
  output_dir : String
  /-- Python `self.interval`; `__init__` accepts any integer, including `≤ 0`. -/
  interval : ℤ
deriving DecidableEq, Repr

/-- The submission loop of `process_videos` (lines 209-222): for each path in
order, skip it when it is not a regular file; otherwise create the per-video
subdirectory `output_dir / stem` and submit the job.  Returns the trace of the
loop and the submitted `(video_path, folder_path)` jobs in order. -/
def submitJobs (env : Env) (output_dir : String) :
    List String → List Event × List (String × String)
  | [] => ([], [])
  | video_path :: rest =>
    if env.isFile video_path then
      let folder_path := output_dir ++ "/" ++ env.stem video_path
      let evs := create_folder env folder_path
      let r := submitJobs env output_dir rest
      (evs ++ [Event.jobSubmitted video_path folder_path] ++ r.1,
        (video_path, folder_path) :: r.2)
    else
      let r := submitJobs env output_dir rest
      (Event.skippedMissing video_path :: r.1, r.2)

/-- The result-collection loop of `process_videos` (lines 225-229): each
`future.result()` is wrapped in `try`/`except Exception`, so an exception from
a job body is caught here and logged (`jobRaised`).  The thread pool is
serialised (see the file header). -/
def runJobs (env : Env) (interval : ℤ) : List (String × String) → List Event
  | [] => []
  | (video_path, folder_path) :: rest =>
    let r := extract_and_save_frames env interval video_path folder_path
    r.events ++
      (match r.result with
       | .ok _ => []
       | .error _ => [Event.jobRaised video_path]) ++
      runJobs env interval rest

/-- Modelled from the spec: the `RunReport` aggregate (counts of succeeded,
skipped and failed jobs) that the specification says the scheduler returns.
The source has no such type; it exists here to compare the source's return
value against the spec's contract. -/
structure RunReport : Type where
  /-- Count of jobs that completed successfully. -/
  succeeded : ℕ
  /-- Count of skipped (missing-file) inputs. -/
  skipped : ℕ
  /-- Count of failed jobs. -/
  failed : ℕ
deriving DecidableEq, Repr

/-- The observable result of one `process_videos` call: its event trace and
its Python return value.  `process_videos` has no `return` statement, so the
returned value is always `None`, modelled as `(none : Option RunReport)`. -/
structure RunResult : Type where
  /-- The trace, in program order. -/
  events : List Event
  /-- The value returned to the caller. -/
  returned : Option RunReport
deriving DecidableEq, Repr

/-- Embedding of `process_videos` (lines 199-231): reset the output root, then the
submission loop, then collect every job result (each wrapped in
`try`/`except`), then log completion.  Returns `None`. -/
def process_videos (env : Env) (s : VideoSlicer) : RunResult :=
  let resetEvents := clear_output_directory env s.output_dir
  let r := submitJobs env s.output_dir s.video_paths
  let jobEvents := runJobs env s.interval r.2
  ⟨resetEvents ++ r.1 ++ jobEvents ++ [Event.runFinished], none⟩

/-- The result-collection loop in exception semantics: identical to `runJobs`
except that an exception not caught by the `try`/`except` around
`future.result()` would surface as `.error`. -/
def runJobsE (env : Env) (interval : ℤ) : List (String × String) → Except PyExn (List Event)
  | [] => .ok []
  | (video_path, folder_path) :: rest => do
    let r := extract_and_save_frames env interval video_path folder_path
    let evs :=
      match r.result with
      | .ok _ => r.events
      | .error _ => r.events ++ [Event.jobRaised video_path]
    let evs' ← runJobsE env interval rest
    return evs ++ evs'

/-- The method `process_videos` in exception semantics: the same body as `process_videos`
but in the `Except` monad, so that any exception escaping the method would
surface as `.error`. -/
def process_videosE (env : Env) (s : VideoSlicer) : Except PyExn RunResult := do
  let resetEvents := clear_output_directory env s.output_dir
  let r := submitJobs env s.output_dir s.video_paths
  let jobEvents ← runJobsE env s.interval r.2
  return ⟨resetEvents ++ r.1 ++ jobEvents ++ [Event.runFinished], none⟩

instance {ε α : Type} [DecidableEq ε] [DecidableEq α] : DecidableEq (Except ε α) := fun a b =>
  match a, b with
  | .error e, .error f => decidable_of_iff (e = f) (by simp)
  | .ok x, .ok y => decidable_of_iff (x = y) (by simp)
  | .error _, .ok _ => isFalse (by simp)
  | .ok _, .error _ => isFalse (by simp)

/-! ### Helper lemmas about the arithmetic-progression list produced by `pyRange` -/

lemma head?_mapMul (i : ℤ) (m : ℕ) :
    ((List.range (m + 1)).map fun k : ℕ => i * (k : ℤ)).head? = some 0 := by
  rw [List.range_succ_eq_map]
  simp

lemma pairwise_mapMul (i : ℤ) (hi : 0 < i) (m : ℕ) :
    ((List.range m).map fun k : ℕ => i * (k : ℤ)).Pairwise (· < ·) :=
  (List.pairwise_lt_range m).map _ (fun a b h => by
    have hab : (a : ℤ) < (b : ℤ) := by exact_mod_cast h
    exact mul_lt_mul_of_pos_left hab hi)

lemma getLast?_mapMul (i : ℤ) (m : ℕ) :
    ((List.range (m + 1)).map fun k : ℕ => i * (k : ℤ)).getLast? = some (i * m) := by
  rw [List.range_succ, List.map_append]
  simp

lemma le_mapMul (i : ℤ) (hi : 0 < i) (m : ℕ) :
    ∀ x ∈ (List.range (m + 1)).map (fun k : ℕ => i * (k : ℤ)), x ≤ i * m := by
  intro x hx
  simp only [List.mem_map, List.mem_range] at hx
  obtain ⟨k, hk, rfl⟩ := hx
  have hkm : (k : ℤ) ≤ (m : ℤ) := by exact_mod_cast Nat.lt_succ_iff.mp hk
  exact mul_le_mul_of_nonneg_left hkm hi.le

/-- For a nonnegative duration and a positive interval, the planned grid is
returned without raising, starts at `0`, is strictly increasing and ends at
`⌊duration⌋`. -/
lemma planTimestamps_pos (d : ℚ) (i : ℤ) (hd : 0 ≤ d) (hi : 0 < i) :
    ∃ l, planTimestamps d i = .ok l ∧ l.head? = some 0 ∧
      l.Pairwise (· < ·) ∧ l.getLast? = some ⌊d⌋ := by
  have hpy : pyInt d = ⌊d⌋ := if_pos hd
  have hn0 : (0 : ℤ) ≤ ⌊d⌋ := Int.floor_nonneg.mpr hd
  have hiz : ¬ i = 0 := by omega
  have hstop : ¬ (⌊d⌋ + 1 ≤ 0) := by omega
  have hlen : pyRangeLen 0 (⌊d⌋ + 1) i = ⌊d⌋.toNat / i.toNat + 1 := by
    simp only [pyRangeLen, if_pos hi, if_neg hstop]
    congr 2
    omega
  have hrange : pyRange 0 (⌊d⌋ + 1) i =
      .ok ((List.range (⌊d⌋.toNat / i.toNat + 1)).map fun k : ℕ => i * (k : ℤ)) := by
    simp only [pyRange, if_neg hiz, hlen, zero_add]
  set m := ⌊d⌋.toNat / i.toNat with hm
  set L := (List.range (m + 1)).map (fun k : ℕ => i * (k : ℤ)) with hL
  have hlast : L.getLast? = some (i * m) := getLast?_mapMul i m
  have hhead : L.head? = some 0 := head?_mapMul i (m := m)
  have hpw : L.Pairwise (· < ·) := pairwise_mapMul i hi (m + 1)
  have hbound : i * (m : ℤ) ≤ ⌊d⌋ := by
    have hi' : (i.toNat : ℤ) = i := Int.toNat_of_nonneg hi.le
    have hn' : (⌊d⌋.toNat : ℤ) = ⌊d⌋ := Int.toNat_of_nonneg hn0
    have hnat : i.toNat * m ≤ ⌊d⌋.toNat := by
      rw [mul_comm]; exact Nat.div_mul_le_self _ _
    calc i * (m : ℤ) = ((i.toNat * m : ℕ) : ℤ) := by push_cast [hi']; ring
    _ ≤ ((⌊d⌋.toNat : ℕ) : ℤ) := by exact_mod_cast hnat
    _ = ⌊d⌋ := hn'
  have hplan : planTimestamps d i =
      .ok (if i * (m : ℤ) ≠ ⌊d⌋ then L ++ [⌊d⌋] else L) := by
    simp only [planTimestamps, hpy, hrange, ← hL, hlast]
  by_cases hcase : i * (m : ℤ) = ⌊d⌋
  · refine ⟨L, ?_, hhead, hpw, ?_⟩
    · simpa [hcase] using hplan
    · rw [hlast, hcase]
  · refine ⟨L ++ [⌊d⌋], by simpa [hcase] using hplan, ?_, ?_, ?_⟩
    · rw [List.head?_append, hhead]
      rfl
    · refine List.pairwise_append.mpr ⟨hpw, List.pairwise_singleton _ _, ?_⟩
      intro x hx y hy
      simp only [List.mem_singleton] at hy
      subst hy
      exact lt_of_le_of_lt (le_mapMul i hi m x hx) (lt_of_le_of_ne hbound hcase)
    · exact List.getLast?_concat _

/-- C1: for every duration `D ≥ 0` and positive integer interval `I`, the
planned timestamp sequence (`list(range(0, floor(D)+1, I))` with `floor(D)`
appended when not already last) starts at `0`, is strictly increasing, and
its last element equals `floor(D)`; for `D = 6.0`, `I = 3` it is exactly
`[0, 3, 6]` with no duplicate final entry. -/
theorem plan_grid_correct :
    (∀ (d : ℚ) (i : ℤ), 0 ≤ d → 0 < i →
      ∃ l, planTimestamps d i = .ok l ∧ l.head? = some 0 ∧
        l.Pairwise (· < ·) ∧ l.getLast? = some ⌊d⌋) ∧
    planTimestamps 6 3 = .ok [0, 3, 6] :=
  ⟨planTimestamps_pos, by decide⟩

/-- Witness for C1 at the spec's other scenario, duration `7.4`, interval `3`. -/
theorem plan_grid_correct_witness :
    ∃ l, planTimestamps (37 / 5) 3 = .ok l ∧ l.head? = some 0 ∧
      l.Pairwise (· < ·) ∧ l.getLast? = some ⌊(37 / 5 : ℚ)⌋ :=
  plan_grid_correct.1 (37 / 5) 3 (by norm_num) (by norm_num)

/-! ### Decimal decoding: `Nat.repr` and the `{:02d}` zero-padded format -/

/-- The numeric value of a decimal digit character. -/
def decDigit (c : Char) : ℕ := c.toNat - 48

/-- Decode a most-significant-digit-first decimal character string. -/
def decodeDec (l : List Char) : ℕ := l.foldl (fun a c => 10 * a + decDigit c) 0

lemma toDigitsCore_append10 (fuel : ℕ) : ∀ (n : ℕ) (acc : List Char),
    Nat.toDigitsCore 10 fuel n acc = Nat.toDigitsCore 10 fuel n [] ++ acc := by
  induction fuel with
  | zero => intro n acc; simp [Nat.toDigitsCore]
  | succ fuel ih =>
    intro n acc
    simp only [Nat.toDigitsCore]
    by_cases h : n / 10 = 0
    · simp [h]
    · rw [if_neg h, if_neg h, ih (n / 10) (Nat.digitChar (n % 10) :: acc),
        ih (n / 10) [Nat.digitChar (n % 10)], List.append_assoc, List.singleton_append]

lemma digitChar_toNat : ∀ d < 10, (Nat.digitChar d).toNat = 48 + d := by decide

lemma decDigit_digitChar (d : ℕ) (h : d < 10) : decDigit (Nat.digitChar d) = d := by
  rw [decDigit, digitChar_toNat d h]
  omega

lemma decodeDec_append_digit (l : List Char) (c : Char) :
    decodeDec (l ++ [c]) = 10 * decodeDec l + decDigit c := by
  simp [decodeDec, List.foldl_append]

lemma decode_toDigitsCore (fuel : ℕ) : ∀ n, n < fuel →
    decodeDec (Nat.toDigitsCore 10 fuel n []) = n := by
  induction fuel with
  | zero => intro n hn; exact absurd hn (Nat.not_lt_zero n)
  | succ fuel ih =>
    intro n hn
    simp only [Nat.toDigitsCore]
    by_cases h : n / 10 = 0
    · rw [if_pos h]
      have h10 : n % 10 < 10 := Nat.mod_lt _ (by norm_num)
      have hone : decodeDec [Nat.digitChar (n % 10)] = n % 10 := by
        simp [decodeDec, decDigit_digitChar _ h10]
      rw [hone]
      omega
    · rw [if_neg h, toDigitsCore_append10, decodeDec_append_digit, ih (n / 10) (by omega),
        decDigit_digitChar _ (Nat.mod_lt _ (by norm_num))]
      omega

/-- Decoding the decimal representation recovers the number. -/
lemma decodeDec_repr (n : ℕ) : decodeDec (Nat.repr n).data = n := by
  have hdata : (Nat.repr n).data = Nat.toDigitsCore 10 (n + 1) n [] := rfl
  rw [hdata]
  exact decode_toDigitsCore (n + 1) n (Nat.lt_succ_self n)

/-- For a nonnegative integer, `Int.repr` agrees with `Nat.repr` of its absolute value. -/
lemma intRepr_nonneg (n : ℤ) (h : 0 ≤ n) : Int.repr n = Nat.repr n.toNat := by
  obtain ⟨m, rfl⟩ := Int.eq_ofNat_of_zero_le h
  rfl

/-- Python `f"{x:02d}"` for a `ℕ` argument. -/
def pad2Nat (x : ℕ) : String := if x < 10 then "0" ++ Nat.repr x else Nat.repr x

lemma pyFormat02_nonneg (n : ℤ) (h : 0 ≤ n) : pyFormat02 n = pad2Nat n.toNat := by
  by_cases h10 : n < 10
  · have hn : n.toNat < 10 := by omega
    simp [pyFormat02, pad2Nat, h, h10, hn]
  · have hn : ¬ n.toNat < 10 := by omega
    simp [pyFormat02, pad2Nat, h, h10, hn, intRepr_nonneg n h]

/-- Decoding the zero-padded field recovers the number (the leading zero does
not change the decoded value). -/
lemma decodeDec_pad2Nat (x : ℕ) : decodeDec (pad2Nat x).data = x := by
  by_cases h : x < 10
  · rw [pad2Nat, if_pos h, String.data_append,
      show ("0" : String).data = ['0'] from rfl, List.singleton_append]
    have hcons : decodeDec ('0' :: (Nat.repr x).data) =
        List.foldl (fun a c => 10 * a + decDigit c) (10 * 0 + decDigit '0') (Nat.repr x).data :=
      rfl
    rw [hcons, show 10 * 0 + decDigit '0' = 0 from by decide]
    exact decodeDec_repr x
  · rw [pad2Nat, if_neg h]
    exact decodeDec_repr x

lemma pad2Nat_data_length : ∀ x < 100, (pad2Nat x).data.length = 2 := by decide

/-- Evaluating `get_timestamp_str` at a nonnegative timestamp, written with `ℕ` division
and remainder of the truncated timestamp. -/
lemma get_timestamp_str_nonneg (t : ℤ) (h : 0 ≤ t) :
    get_timestamp_str t =
      pad2Nat (t.toNat / 3600) ++ "_" ++ pad2Nat (t.toNat % 3600 / 60) ++ "_"
        ++ pad2Nat (t.toNat % 3600 % 60) := by
  have e1 : t.fdiv 3600 = t / 3600 := Int.fdiv_eq_ediv t (by norm_num)
  have e2 : t.fmod 3600 = t % 3600 := Int.fmod_eq_emod t (by norm_num)
  have e3 : (t % 3600).fdiv 60 = (t % 3600) / 60 := Int.fdiv_eq_ediv _ (by norm_num)
  have e4 : (t % 3600).fmod 60 = (t % 3600) % 60 := Int.fmod_eq_emod _ (by norm_num)
  have n1 : 0 ≤ t / 3600 := Int.ediv_nonneg h (by norm_num)
  have n2 : 0 ≤ (t % 3600) / 60 :=
    Int.ediv_nonneg (Int.emod_nonneg t (by norm_num)) (by norm_num)
  have n3 : 0 ≤ (t % 3600) % 60 := Int.emod_nonneg _ (by norm_num)
  have c1 : (t / 3600).toNat = t.toNat / 3600 := by omega
  have c2 : ((t % 3600) / 60).toNat = t.toNat % 3600 / 60 := by omega
  have c3 : ((t % 3600) % 60).toNat = t.toNat % 3600 % 60 := by omega
  rw [get_timestamp_str, e1, e2, e3, e4, pyFormat02_nonneg _ n1, pyFormat02_nonneg _ n2,
    pyFormat02_nonneg _ n3, c1, c2, c3]

/-- The `HH_MM_SS` encoding is injective on nonnegative timestamps. -/
lemma get_timestamp_str_inj (a b : ℤ) (ha : 0 ≤ a) (hb : 0 ≤ b)
    (h : get_timestamp_str a = get_timestamp_str b) : a = b := by
  rw [get_timestamp_str_nonneg a ha, get_timestamp_str_nonneg b hb] at h
  have hdata := congrArg String.data h
  simp only [String.data_append, show ("_" : String).data = ['_'] from rfl,
    List.append_assoc, List.singleton_append] at hdata
  have hm1 : a.toNat % 3600 / 60 < 100 := by omega
  have hs1 : a.toNat % 3600 % 60 < 100 := by omega
  have hm2 : b.toNat % 3600 / 60 < 100 := by omega
  have hs2 : b.toNat % 3600 % 60 < 100 := by omega
  have hlen :
      ('_' :: ((pad2Nat (a.toNat % 3600 / 60)).data ++
        '_' :: (pad2Nat (a.toNat % 3600 % 60)).data)).length =
      ('_' :: ((pad2Nat (b.toNat % 3600 / 60)).data ++
        '_' :: (pad2Nat (b.toNat % 3600 % 60)).data)).length := by
    simp [pad2Nat_data_length _ hm1, pad2Nat_data_length _ hs1,
      pad2Nat_data_length _ hm2, pad2Nat_data_length _ hs2]
  obtain ⟨hA, hsuf⟩ := List.append_inj' hdata hlen
  injection hsuf with _ hsuf
  obtain ⟨hB, hrest⟩ := List.append_inj hsuf
    (by rw [pad2Nat_data_length _ hm1, pad2Nat_data_length _ hm2])
  injection hrest with _ hC
  have h1 : a.toNat / 3600 = b.toNat / 3600 := by
    rw [← decodeDec_pad2Nat (a.toNat / 3600), ← decodeDec_pad2Nat (b.toNat / 3600), hA]
  have h2 : a.toNat % 3600 / 60 = b.toNat % 3600 / 60 := by
    rw [← decodeDec_pad2Nat (a.toNat % 3600 / 60), ← decodeDec_pad2Nat (b.toNat % 3600 / 60), hB]
  have h3 : a.toNat % 3600 % 60 = b.toNat % 3600 % 60 := by
    rw [← decodeDec_pad2Nat (a.toNat % 3600 % 60), ← decodeDec_pad2Nat (b.toNat % 3600 % 60), hC]
  omega

/-- Modelled from the spec: the output image name `HH_MM_SS.png`, with
hours = `t div 3600`, minutes = `(t mod 3600) div 60`, seconds = `t mod 60`,
each zero-padded to at least two digits. -/
def specFrameName (t : ℕ) : String :=
  pad2Nat (t / 3600) ++ "_" ++ pad2Nat (t % 3600 / 60) ++ "_" ++ pad2Nat (t % 60) ++ ".png"

/-- C8: for every nonnegative integer timestamp, the output filename is the
zero-padded `HH_MM_SS` encoding with suffix `.png`; the encoding is injective
on nonnegative integers, so the filenames of a strictly increasing timestamp
grid are pairwise distinct. -/
theorem frame_filename_correct :
    (∀ t : ℤ, 0 ≤ t → get_timestamp_str t ++ ".png" = specFrameName t.toNat) ∧
    (∀ a b : ℤ, 0 ≤ a → 0 ≤ b → get_timestamp_str a = get_timestamp_str b → a = b) ∧
    (∀ l : List ℤ, (∀ t ∈ l, 0 ≤ t) → l.Pairwise (· < ·) →
      (l.map fun t => get_timestamp_str t ++ ".png").Nodup) := by
  refine ⟨?_, get_timestamp_str_inj, ?_⟩
  · intro t ht
    rw [get_timestamp_str_nonneg t ht, specFrameName,
      Nat.mod_mod_of_dvd t.toNat (by norm_num : (60 : ℕ) ∣ 3600)]
  · intro l hpos hlt
    show (l.map fun t => get_timestamp_str t ++ ".png").Pairwise (· ≠ ·)
    rw [List.pairwise_map]
    refine hlt.imp_of_mem ?_
    intro a b hma hmb hab heq
    have hdata := congrArg String.data heq
    simp only [String.data_append] at hdata
    obtain ⟨hts, -⟩ := List.append_inj' hdata rfl
    exact absurd (get_timestamp_str_inj a b (hpos a hma) (hpos b hmb) (String.ext hts))
      hab.ne

/-- Witness for C8: the encoding at `t = 3661` seconds, and distinct names on
the grid `[0, 3, 6]`. -/
theorem frame_filename_correct_witness :
    get_timestamp_str 3661 ++ ".png" = specFrameName (3661 : ℤ).toNat ∧
    ([0, 3, 6].map fun t : ℤ => get_timestamp_str t ++ ".png").Nodup :=
  ⟨frame_filename_correct.1 3661 (by norm_num),
    frame_filename_correct.2.2 [0, 3, 6] (by decide) (by decide)⟩

/-! ### Event classifiers and concrete environments -/

/-- Whether an event belongs to the root-reset phase. -/
def Event.isReset : Event → Bool
  | .resetRemoved _ _ => true
  | .resetCreated _ _ => true
  | _ => false

/-- Whether an event is a frame-extraction attempt (successful or failed). -/
def Event.isFrame : Event → Bool
  | .frameSaved _ _ => true
  | .frameFailed _ _ => true
  | _ => false

/-- An environment in which every operation succeeds: one 640x480 video of
duration 6 s. -/
def envA : Env where
  isFile := fun _ => true
  pathExists := fun _ => false
  rmtree := fun _ => none
  mkdir := fun _ => none
  resolutionProbe := fun _ => .found 640 480
  durationProbe := fun _ => .found 6
  extract := fun _ _ _ => .ok
  stem := fun _ => "a"

/-- A slicer over one video with the default interval 3. -/
def slicerA : VideoSlicer := ⟨["a.mp4"], "frames", 3⟩

/-- A slicer constructed with interval `0`: `__init__` performs no validation
and stores it as-is. -/
def slicer0 : VideoSlicer := ⟨["a.mp4"], "frames", 0⟩

/-- An environment in which the root reset fails completely (both the removal
and the re-creation raise) but everything else succeeds. -/
def envResetFail : Env where
  isFile := fun _ => true
  pathExists := fun _ => true
  rmtree := fun _ => some (.osError "permission denied")
  mkdir := fun _ => none
  resolutionProbe := fun _ => .found 640 480
  durationProbe := fun _ => .found 6
  extract := fun _ _ _ => .ok
  stem := fun _ => "a"

/-- An environment in which `ffmpeg` exits non-zero exactly at timestamp 3. -/
def envFrameFail : Env where
  isFile := fun _ => true
  pathExists := fun _ => false
  rmtree := fun _ => none
  mkdir := fun _ => none
  resolutionProbe := fun _ => .found 640 480
  durationProbe := fun _ => .found 6
  extract := fun _ t _ => if t = 3 then .nonzeroExit "boom" else .ok
  stem := fun _ => "a"

/-- An environment in which the duration probe fails exactly for video `"b"`. -/
def envProbeFailB : Env where
  isFile := fun _ => true
  pathExists := fun _ => false
  rmtree := fun _ => none
  mkdir := fun _ => none
  resolutionProbe := fun _ => .found 640 480
  durationProbe := fun p => if p = "b" then .parseFailure else .found 6
  extract := fun _ _ _ => .ok
  stem := fun _ => "a"

/-- An environment in which `"missing.mp4"` is not a regular file. -/
def envMissing : Env where
  isFile := fun p => !(p == "missing.mp4")
  pathExists := fun _ => false
  rmtree := fun _ => none
  mkdir := fun _ => none
  resolutionProbe := fun _ => .found 640 480
  durationProbe := fun _ => .found 6
  extract := fun _ _ _ => .ok
  stem := fun _ => "a"

/-- An environment in which spawning `ffmpeg` itself raises an `OSError`
(an exception that `extract_and_save_frame` does not catch). -/
def envInvokeFail : Env where
  isFile := fun _ => true
  pathExists := fun _ => false
  rmtree := fun _ => none
  mkdir := fun _ => none
  resolutionProbe := fun _ => .found 640 480
  durationProbe := fun _ => .found 6
  extract := fun _ _ _ => .invokeFailure "ffmpeg missing"
  stem := fun _ => "a"

/-! ### C10: the probe operations are total -/

/-- C10: `get_video_resolution` and `get_video_duration` never raise: viewed in
exception semantics they always return normally, with the parsed value on a
successful pipeline and `None` on any invocation, parse, or missing-stream
failure. -/
theorem probe_queries_total :
    ∀ (env : Env) (p : String),
      get_video_resolutionE env p = .ok (get_video_resolution env p) ∧
      (∀ w h, resolutionBody env p = .ok (w, h) → get_video_resolution env p = some (w, h)) ∧
      (∀ e, resolutionBody env p = .error e → get_video_resolution env p = none) ∧
      get_video_durationE env p = .ok (get_video_duration env p) ∧
      (∀ d, durationBody env p = .ok d → get_video_duration env p = some d) ∧
      (∀ e, durationBody env p = .error e → get_video_duration env p = none) := by
  intro env p
  refine ⟨?_, ?_, ?_, ?_, ?_, ?_⟩
  · cases hr : resolutionBody env p <;>
      simp [get_video_resolution, get_video_resolutionE, hr]
  · intro w h hm
    simp [get_video_resolution, hm]
  · intro e he
    simp [get_video_resolution, he]
  · cases hd : durationBody env p <;>
      simp [get_video_duration, get_video_durationE, hd]
  · intro d hd
    simp [get_video_duration, hd]
  · intro e he
    simp [get_video_duration, he]

/-- Witness for C10: a successful resolution probe and a failed duration probe. -/
theorem probe_queries_total_witness :
    get_video_resolution envA "a.mp4" = some (640, 480) ∧
    get_video_duration envProbeFailB "b" = none :=
  ⟨(probe_queries_total envA "a.mp4").2.1 640 480 rfl,
    (probe_queries_total envProbeFailB "b").2.2.2.2.2 .parseError rfl⟩

/-! ### C2: a non-positive interval is not rejected (code bug) -/

/-- C2 (divergence witness): constructing `VideoSlicer` with interval `0`
succeeds and stores the value unvalidated; the failure only happens later,
inside the job, when `range(0, int(duration)+1, 0)` raises `ValueError` (and a
negative interval makes the range empty, so `timestamps[-1]` raises
`IndexError`); `process_videos` catches the exception at `future.result()` and
the run still completes.  The spec instead requires rejection before planning. -/
theorem interval_zero_not_rejected :
    slicer0.interval = 0 ∧
    (∀ d : ℚ, planTimestamps d 0 = .error .valueError) ∧
    planTimestamps 6 (-3) = .error .indexError ∧
    Event.jobRaised "a.mp4" ∈ (process_videos envA slicer0).events ∧
    (process_videos envA slicer0).events.getLast? = some Event.runFinished := by
  refine ⟨rfl, ?_, by decide, by decide, by decide⟩
  intro d
  simp [planTimestamps, pyRange]

/-! ### Structural lemmas about the submission and collection loops -/

lemma submitJobs_append (env : Env) (out : String) (xs ys : List String) :
    (submitJobs env out (xs ++ ys)).1 = (submitJobs env out xs).1 ++ (submitJobs env out ys).1 ∧
    (submitJobs env out (xs ++ ys)).2 = (submitJobs env out xs).2 ++ (submitJobs env out ys).2 := by
  induction xs with
  | nil => simp [submitJobs]
  | cons x xs ih =>
    by_cases h : env.isFile x <;> simp [submitJobs, h, ih.1, ih.2]

lemma submitJobs_jobs_are_files (env : Env) (out : String) :
    ∀ (paths : List String), ∀ vf ∈ (submitJobs env out paths).2, env.isFile vf.1 = true := by
  intro paths
  induction paths with
  | nil => simp [submitJobs]
  | cons x xs ih =>
    intro vf hvf
    by_cases h : env.isFile x
    · simp only [submitJobs, if_pos h] at hvf
      rcases List.mem_cons.mp hvf with rfl | hvf'
      · exact h
      · exact ih vf hvf'
    · simp only [submitJobs, if_neg h] at hvf
      exact ih vf hvf

lemma runJobs_append (env : Env) (i : ℤ) (xs ys : List (String × String)) :
    runJobs env i (xs ++ ys) = runJobs env i xs ++ runJobs env i ys := by
  induction xs with
  | nil => simp [runJobs]
  | cons j xs ih =>
    obtain ⟨v, f⟩ := j
    simp [runJobs, ih]

/-! ### C7: missing input files are skipped, the run continues -/

/-- C7: a listed path that is not a regular file contributes exactly one
skip event — no subdirectory creation, no submission — and every other path is
processed exactly as it would be without it; moreover every submitted job is
for an existing regular file. -/
theorem missing_input_skipped :
    ∀ (env : Env) (out : String) (pre : List String) (p : String) (post : List String),
      env.isFile p = false →
      (submitJobs env out (pre ++ p :: post)).1 =
        (submitJobs env out pre).1 ++ Event.skippedMissing p :: (submitJobs env out post).1 ∧
      (submitJobs env out (pre ++ p :: post)).2 =
        (submitJobs env out pre).2 ++ (submitJobs env out post).2 ∧
      (∀ (paths : List String), ∀ vf ∈ (submitJobs env out paths).2, env.isFile vf.1 = true) := by
  intro env out pre p post hp
  refine ⟨?_, ?_, submitJobs_jobs_are_files env out⟩
  · rw [(submitJobs_append env out pre (p :: post)).1]
    simp [submitJobs, hp]
  · rw [(submitJobs_append env out pre (p :: post)).2]
    simp [submitJobs, hp]

/-- Witness for C7: `missing.mp4` between two existing videos is skipped while
both neighbours are still submitted. -/
theorem missing_input_skipped_witness :
    (submitJobs envMissing "frames" (["x.mp4"] ++ "missing.mp4" :: ["y.mp4"])).1 =
      (submitJobs envMissing "frames" ["x.mp4"]).1 ++
        Event.skippedMissing "missing.mp4" :: (submitJobs envMissing "frames" ["y.mp4"]).1 ∧
    (submitJobs envMissing "frames" (["x.mp4"] ++ "missing.mp4" :: ["y.mp4"])).2 =
      (submitJobs envMissing "frames" ["x.mp4"]).2 ++ (submitJobs envMissing "frames" ["y.mp4"]).2 ∧
    (∀ (paths : List String), ∀ vf ∈ (submitJobs envMissing "frames" paths).2,
      envMissing.isFile vf.1 = true) :=
  missing_input_skipped envMissing "frames" ["x.mp4"] "missing.mp4" ["y.mp4"] (by decide)

/-! ### C5: a failed frame extraction fails only that frame -/

/-- C5: as long as `ffmpeg` itself can be invoked, a non-zero exit at one
timestamp is caught inside `extract_and_save_frame`: the loop still attempts
every timestamp of the grid in order, records a `frameFailed` for the failed
one and a `frameSaved` for each other one, and the job body returns normally. -/
theorem frame_failure_isolated :
    ∀ (env : Env) (video_path folder_path : String) (ts : List ℤ),
      (∀ t ∈ ts, ∀ msg, env.extract video_path t
          (folder_path ++ "/" ++ get_timestamp_str t ++ ".png") ≠ .invokeFailure msg) →
      (extractFramesLoop env video_path folder_path ts).result = .ok () ∧
      (extractFramesLoop env video_path folder_path ts).events =
        ts.map (fun t =>
          match env.extract video_path t (folder_path ++ "/" ++ get_timestamp_str t ++ ".png") with
          | .nonzeroExit _ => Event.frameFailed video_path t
          | _ => Event.frameSaved video_path t) := by
  intro env v f ts
  induction ts with
  | nil => intro _; exact ⟨rfl, rfl⟩
  | cons t rest ih =>
    intro h
    have hrest := ih (fun t' ht' msg => h t' (List.mem_cons_of_mem t ht') msg)
    cases hx : env.extract v t (f ++ "/" ++ get_timestamp_str t ++ ".png") with
    | ok =>
      constructor
      · simp [extractFramesLoop, extract_and_save_frame, hx, hrest.1]
      · simp [extractFramesLoop, extract_and_save_frame, hx, hrest.2]
    | nonzeroExit s =>
      constructor
      · simp [extractFramesLoop, extract_and_save_frame, hx, hrest.1]
      · simp [extractFramesLoop, extract_and_save_frame, hx, hrest.2]
    | invokeFailure msg => exact absurd hx (h t (List.mem_cons_self t rest) msg)

/-- Witness for C5: with `ffmpeg` failing exactly at timestamp 3, the grid
`[0, 3, 6]` is still fully attempted and the job body returns normally. -/
theorem frame_failure_isolated_witness :
    (extractFramesLoop envFrameFail "a.mp4" "frames/a" [0, 3, 6]).result = .ok () ∧
    (extractFramesLoop envFrameFail "a.mp4" "frames/a" [0, 3, 6]).events =
      [0, 3, 6].map (fun t : ℤ =>
        match envFrameFail.extract "a.mp4" t ("frames/a" ++ "/" ++ get_timestamp_str t ++ ".png") with
        | .nonzeroExit _ => Event.frameFailed "a.mp4" t
        | _ => Event.frameSaved "a.mp4" t) :=
  frame_failure_isolated envFrameFail "a.mp4" "frames/a" [0, 3, 6]
    (by intro t ht msg; by_cases h3 : t = 3 <;> simp [envFrameFail, h3])

/-! ### C6: a probe failure aborts only the owning job -/

/-- C6: when the resolution or duration probe of video `B` fails, `B`'s job
body returns early with no frame events at all, and in a run containing other
jobs the collection loop is exactly `B`'s own events spliced between the
unchanged traces of the other jobs. -/
theorem probe_failure_isolated :
    ∀ (env : Env) (interval : ℤ) (jobs₁ jobs₂ : List (String × String)) (B fB : String),
      (get_video_resolution env B = none ∨ get_video_duration env B = none) →
      (extract_and_save_frames env interval B fB).result = .ok () ∧
      (extract_and_save_frames env interval B fB).events.all (fun e => !e.isFrame) = true ∧
      runJobs env interval (jobs₁ ++ (B, fB) :: jobs₂) =
        runJobs env interval jobs₁ ++
          (extract_and_save_frames env interval B fB).events ++ runJobs env interval jobs₂ := by
  intro env i j1 j2 B fB hfail
  have hbody : extract_and_save_frames env i B fB = ⟨[Event.resolutionFailed B], .ok ()⟩ ∨
      extract_and_save_frames env i B fB = ⟨[Event.durationFailed B], .ok ()⟩ := by
    cases hres : get_video_resolution env B with
    | none => exact Or.inl (by simp [extract_and_save_frames, hres])
    | some wh =>
      cases hdur : get_video_duration env B with
      | none => exact Or.inr (by simp [extract_and_save_frames, hres, hdur])
      | some d =>
        rcases hfail with h | h
        · rw [hres] at h; exact absurd h (by simp)
        · rw [hdur] at h; exact absurd h (by simp)
    
  have hsplice : runJobs env i (j1 ++ (B, fB) :: j2) =
      runJobs env i j1 ++ (extract_and_save_frames env i B fB).events ++ runJobs env i j2 := by
    rw [runJobs_append]
    rcases hbody with hb | hb <;> simp [runJobs, hb]
  rcases hbody with hb | hb <;> exact ⟨by rw [hb], by rw [hb]; rfl, hsplice⟩

/-- Witness for C6: videos `a` and `b` in one run, `b`'s duration probe fails;
`b` produces no frame events and `a`'s trace is untouched. -/
theorem probe_failure_isolated_witness :
    (extract_and_save_frames envProbeFailB 3 "b" "frames/b").result = .ok () ∧
    (extract_and_save_frames envProbeFailB 3 "b" "frames/b").events.all
        (fun e => !e.isFrame) = true ∧
    runJobs envProbeFailB 3 ([("a", "frames/a")] ++ ("b", "frames/b") :: []) =
      runJobs envProbeFailB 3 [("a", "frames/a")] ++
        (extract_and_save_frames envProbeFailB 3 "b" "frames/b").events ++
        runJobs envProbeFailB 3 [] :=
  probe_failure_isolated envProbeFailB 3 [("a", "frames/a")] [] "b" "frames/b"
    (Or.inr (by decide))

/-! ### C3: a root-reset failure does not stop the run (corrected) -/

lemma jobSubmitted_mem_submit (env : Env) (out : String) :
    ∀ (paths : List String) (p : String), p ∈ paths → env.isFile p = true →
      Event.jobSubmitted p (out ++ "/" ++ env.stem p) ∈ (submitJobs env out paths).1 := by
  intro paths
  induction paths with
  | nil => simp
  | cons x rest ih =>
    intro p hp hf
    rcases List.mem_cons.mp hp with rfl | hp'
    · simp [submitJobs, hf]
    · by_cases hx : env.isFile x <;> simp [submitJobs, hx, ih p hp' hf]

/-- C3 counterexample: in an environment where removing the root output
directory raises, the run is not aborted — the reset failure is merely
logged, the job for `a.mp4` is still created (submitted) and executed to the
point of saving frames. -/
theorem reset_failure_not_fatal_cex :
    Event.resetRemoved "frames" false ∈ (process_videos envResetFail slicerA).events ∧
    Event.jobSubmitted "a.mp4" "frames/a" ∈ (process_videos envResetFail slicerA).events ∧
    Event.frameSaved "a.mp4" 6 ∈ (process_videos envResetFail slicerA).events := by
  refine ⟨by decide, by decide, by decide⟩

/-- C3 amended: a failure of the root reset is logged (recorded in the trace)
but is not fatal: independently of the reset outcome, every listed existing
video is still submitted as a job. -/
theorem reset_failure_not_fatal :
    ∀ (env : Env) (s : VideoSlicer) (p : String),
      (env.pathExists s.output_dir = true → ∀ e, env.rmtree s.output_dir = some e →
        Event.resetRemoved s.output_dir false ∈ (process_videos env s).events) ∧
      (p ∈ s.video_paths → env.isFile p = true →
        Event.jobSubmitted p (s.output_dir ++ "/" ++ env.stem p) ∈
          (process_videos env s).events) := by
  intro env s p
  constructor
  · intro hex e hrm
    have : Event.resetRemoved s.output_dir false ∈ clear_output_directory env s.output_dir := by
      simp [clear_output_directory, hex, hrm]
    simp only [process_videos, List.mem_append]
    exact Or.inl (Or.inl (Or.inl this))
  · intro hp hf
    have := jobSubmitted_mem_submit env s.output_dir s.video_paths p hp hf
    simp only [process_videos, List.mem_append]
    exact Or.inl (Or.inl (Or.inr this))

/-- Witness for C3 (amended): the failing-reset environment, where the failure
is logged and the job is still submitted. -/
theorem reset_failure_not_fatal_witness :
    Event.resetRemoved "frames" false ∈ (process_videos envResetFail slicerA).events ∧
    Event.jobSubmitted "a.mp4" "frames/a" ∈ (process_videos envResetFail slicerA).events :=
  ⟨(reset_failure_not_fatal envResetFail slicerA "a.mp4").1 rfl
      (.osError "permission denied") rfl,
    (reset_failure_not_fatal envResetFail slicerA "a.mp4").2 (by decide) rfl⟩

/-! ### C4: the scheduler swallows all errors but returns no report (corrected) -/

lemma runJobsE_eq (env : Env) (i : ℤ) :
    ∀ jobs, runJobsE env i jobs = .ok (runJobs env i jobs) := by
  intro jobs
  induction jobs with
  | nil => rfl
  | cons j rest ih =>
    obtain ⟨v, f⟩ := j
    cases hr : (extract_and_save_frames env i v f).result <;>
      simp [runJobsE, runJobs, hr, ih]

lemma jobRaised_mem_runJobs (env : Env) (i : ℤ) :
    ∀ (jobs : List (String × String)) (v f : String) (e : PyExn),
      (v, f) ∈ jobs → (extract_and_save_frames env i v f).result = .error e →
      Event.jobRaised v ∈ runJobs env i jobs := by
  intro jobs
  induction jobs with
  | nil => simp
  | cons j rest ih =>
    intro v f e hm herr
    rcases List.mem_cons.mp hm with h | h
    · cases h
      simp [runJobs, herr]
    · obtain ⟨v', f'⟩ := j
      simp only [runJobs]
      exact List.mem_append_right _ (ih v f e h herr)

/-- C4 counterexample: `process_videos` has no `return` statement; even on a
fully successful run the caller receives `None`, not a `RunReport` with
succeeded/skipped/failed counts. -/
theorem run_returns_no_report_cex :
    ¬ ∃ r : RunReport, (process_videos envA slicerA).returned = some r := by
  simp [process_videos]

/-- C4 amended: for every environment the scheduler completes normally — in
exception semantics it never raises, any exception escaping a job body is
caught at `future.result()` and recorded as a `jobRaised` event, and the final
log line is reached — but its return value is always `None`: outcomes are only
surfaced through the trace, never as a returned `RunReport`. -/
theorem scheduler_catches_all :
    ∀ (env : Env) (s : VideoSlicer),
      process_videosE env s = .ok (process_videos env s) ∧
      (process_videos env s).returned = none ∧
      (process_videos env s).events.getLast? = some Event.runFinished ∧
      (∀ vf ∈ (submitJobs env s.output_dir s.video_paths).2, ∀ e,
        (extract_and_save_frames env s.interval vf.1 vf.2).result = .error e →
        Event.jobRaised vf.1 ∈ (process_videos env s).events) := by
  intro env s
  refine ⟨?_, rfl, ?_, ?_⟩
  · simp [process_videosE, process_videos, runJobsE_eq]
  · have h : (process_videos env s).events =
        (clear_output_directory env s.output_dir ++ (submitJobs env s.output_dir s.video_paths).1 ++
          runJobs env s.interval (submitJobs env s.output_dir s.video_paths).2) ++
          [Event.runFinished] := by
      simp [process_videos, List.append_assoc]
    rw [h, List.getLast?_concat]
  · intro vf hvf e herr
    obtain ⟨v, f⟩ := vf
    have hmem := jobRaised_mem_runJobs env s.interval
      (submitJobs env s.output_dir s.video_paths).2 v f e hvf herr
    simp only [process_videos]
    exact List.mem_append_left _ (List.mem_append_right _ hmem)

/-- Witness for C4 (amended): an environment where `ffmpeg` cannot be spawned
(`OSError`, not caught inside the job); the job's exception is recorded as
`jobRaised` and the run still reaches the final log line. -/
theorem scheduler_catches_all_witness :
    Event.jobRaised "a.mp4" ∈ (process_videos envInvokeFail slicerA).events ∧
    (process_videos envInvokeFail slicerA).events.getLast? = some Event.runFinished :=
  ⟨(scheduler_catches_all envInvokeFail slicerA).2.2.2 ("a.mp4", "frames/a") (by decide)
      (.osError "ffmpeg missing") (by decide),
    (scheduler_catches_all envInvokeFail slicerA).2.2.1⟩

/-! ### C9: the root reset completes before any job activity -/

lemma create_folder_events (env : Env) (p : String) :
    ∃ b, create_folder env p = [Event.folderCreated p b] := by
  cases h : env.mkdir p with
  | none => exact ⟨true, by simp [create_folder, h]⟩
  | some ex => exact ⟨false, by simp [create_folder, h]⟩

lemma submit_events_not_reset (env : Env) (out : String) :
    ∀ (paths : List String), ∀ e ∈ (submitJobs env out paths).1, e.isReset = false := by
  intro paths
  induction paths with
  | nil => simp [submitJobs]
  | cons x rest ih =>
    intro e he
    by_cases hx : env.isFile x
    · obtain ⟨b, hb⟩ := create_folder_events env (out ++ "/" ++ env.stem x)
      simp [submitJobs, hx, hb] at he
      rcases he with rfl | rfl | h
      · rfl
      · rfl
      · exact ih e h
    · simp only [submitJobs, if_neg hx, List.mem_cons] at he
      rcases he with rfl | h
      · rfl
      · exact ih e h

lemma loop_events_not_reset (env : Env) (v f : String) :
    ∀ (ts : List ℤ), ∀ e ∈ (extractFramesLoop env v f ts).events, e.isReset = false := by
  intro ts
  induction ts with
  | nil => simp [extractFramesLoop]
  | cons t rest ih =>
    intro e he
    cases hx : env.extract v t (f ++ "/" ++ get_timestamp_str t ++ ".png") with
    | ok =>
      simp only [extractFramesLoop, extract_and_save_frame, hx, List.cons_append,
        List.nil_append, List.mem_cons] at he
      rcases he with rfl | h
      · rfl
      · exact ih e h
    | nonzeroExit s =>
      simp only [extractFramesLoop, extract_and_save_frame, hx, List.cons_append,
        List.nil_append, List.mem_cons] at he
      rcases he with rfl | h
      · rfl
      · exact ih e h
    | invokeFailure msg =>
      simp only [extractFramesLoop, extract_and_save_frame, hx, List.not_mem_nil] at he

lemma frames_events_not_reset (env : Env) (i : ℤ) (v f : String) :
    ∀ e ∈ (extract_and_save_frames env i v f).events, e.isReset = false := by
  intro e he
  cases hres : get_video_resolution env v with
  | none =>
    simp only [extract_and_save_frames, hres, List.mem_singleton] at he
    subst he; rfl
  | some wh =>
    cases hdur : get_video_duration env v with
    | none =>
      simp only [extract_and_save_frames, hres, hdur, List.mem_singleton] at he
      subst he; rfl
    | some d =>
      cases hplan : planTimestamps d i with
      | error ex =>
        simp only [extract_and_save_frames, hres, hdur, hplan, List.not_mem_nil] at he
      | ok ts =>
        simp only [extract_and_save_frames, hres, hdur, hplan] at he
        exact loop_events_not_reset env v f ts e he

lemma runJobs_events_not_reset (env : Env) (i : ℤ) :
    ∀ (jobs : List (String × String)), ∀ e ∈ runJobs env i jobs, e.isReset = false := by
  intro jobs
  induction jobs with
  | nil => simp [runJobs]
  | cons j rest ih =>
    obtain ⟨v, f⟩ := j
    intro e he
    simp only [runJobs, List.mem_append] at he
    rcases he with (h | h) | h
    · exact frames_events_not_reset env i v f e h
    · cases hr : (extract_and_save_frames env i v f).result with
      | ok u => rw [hr] at h; exact absurd h (by simp)
      | error ex =>
        rw [hr] at h
        simp only [List.mem_singleton] at h
        subst h; rfl
    · exact ih e h

lemma clear_events_reset (env : Env) (out : String) :
    ∀ e ∈ clear_output_directory env out, e.isReset = true := by
  intro e he
  by_cases hex : env.pathExists out
  · rcases hrm : env.rmtree out with - | ex <;> rcases hm : env.mkdir out with - | ex' <;>
      simp only [clear_output_directory, hex, hrm, hm, if_pos, List.mem_append,
        List.mem_singleton, if_true] at he <;>
      rcases he with rfl | rfl <;> rfl
  · rcases hm : env.mkdir out with - | ex' <;>
      simp only [clear_output_directory, hex, hm, if_neg, Bool.false_eq_true,
        not_false_iff, List.nil_append, List.mem_singleton] at he <;>
      subst he <;> rfl

/-- C9: the trace of every run factors as the complete root-reset trace
followed by everything else: the synchronous `clear_output_directory` call
contributes exactly the reset events and they form the prefix of the trace;
no subdirectory-creation, submission, or frame event occurs before the reset
has returned. -/
theorem reset_completes_first :
    ∀ (env : Env) (s : VideoSlicer), ∃ rest,
      (process_videos env s).events = clear_output_directory env s.output_dir ++ rest ∧
      ((clear_output_directory env s.output_dir).all fun e => e.isReset) = true ∧
      (rest.all fun e => !e.isReset) = true := by
  intro env s
  refine ⟨(submitJobs env s.output_dir s.video_paths).1 ++
    (runJobs env s.interval (submitJobs env s.output_dir s.video_paths).2 ++
      [Event.runFinished]), ?_, ?_, ?_⟩
  · simp [process_videos]
  · rw [List.all_eq_true]
    intro e he
    simp [clear_events_reset env s.output_dir e he]
  · rw [List.all_eq_true]
    intro e he
    simp only [List.mem_append, List.mem_singleton] at he
    rcases he with h | h | rfl
    · simp [submit_events_not_reset env s.output_dir s.video_paths e h]
    · simp [runJobs_events_not_reset env s.interval _ e h]
    · rfl
